import Mathlib

/-!
Verification of the aspect-locked region editor and capture pipeline of the
projector-mirror scripts (`projector_mirror_tk.py` and its variants).

Shallow embedding conventions:
* Pixel coordinates are `ℤ`.  Python `//` (floor division) is Lean `/` on `ℤ`
  (Euclidean division agrees with floor division for the positive divisors used
  here, and this is checked against concrete values in the theorems below).
* The aspect ratio `self.aspect = source_width / source_height` is a Python
  float; it is modelled exactly as the integer fraction `aw / ah` of the source
  monitor, so `round(x / aspect)` becomes banker's rounding of the exact
  rational `x * ah / aw` (Python 3 `round` rounds half to even), and
  `int(x * aspect)` becomes truncation toward zero of `x * aw / ah`.
* Bounds `W, H` are the projector monitor's size (`self.proj_m`).
-/

namespace PM

/-- Corner handle radius, `HANDLE = 10` in `projector_mirror_tk.py`. -/
def HANDLE : ℤ := 10

/-- Minimum rectangle width, `MIN_W = 80` in `projector_mirror_tk.py`. -/
def MIN_W : ℤ := 80

/-- Minimum rectangle height, `MIN_H = 45` in `projector_mirror_tk.py`. -/
def MIN_H : ℤ := 45

/-- Banker's rounding of the fraction `n / d` (for `d > 0`): Python 3
`round(n / d)` computed exactly.  `q` is the floor of the quotient and `r` the
nonnegative remainder; the fractional part is `r / d`. -/
def pyRoundDiv (n d : ℤ) : ℤ :=
  if 2 * (n % d) < d then n / d
  else if d < 2 * (n % d) then n / d + 1
  else if (n / d) % 2 = 0 then n / d else n / d + 1

/-- Truncation toward zero of the fraction `n / d` (for `d > 0`): Python
`int(n / d)` computed exactly. -/
def pyTruncDiv (n d : ℤ) : ℤ :=
  if 0 ≤ n then n / d else -((-n) / d)

/-- Clamp `v` into `[lo, hi]`, the `max(lo, min(v, hi))` idiom of the scripts. -/
def clampI (v lo hi : ℤ) : ℤ := max lo (min v hi)

/-- The editor rectangle `self.rect = [x1, y1, x2, y2]` of the tk scripts. -/
structure Rect where
  x1 : ℤ
  y1 : ℤ
  x2 : ℤ
  y2 : ℤ
deriving DecidableEq, Repr

/-- Session configuration: source aspect ratio `aw / ah` (source monitor width
and height) and projector bounds `W × H` (`self.proj_m`). -/
structure Config where
  aw : ℤ
  ah : ℤ
  W : ℤ
  H : ℤ
deriving DecidableEq, Repr

/-- The configuration of the spec's end-to-end scenario: 16/9 source aspect,
1920×1080 projector bounds. -/
def cfg0 : Config := ⟨16, 9, 1920, 1080⟩

/-- The four corner handles. -/
inductive Corner where
  | tl
  | tr
  | bl
  | br
deriving DecidableEq, Repr

/-- The fixed (opposite) corner used during a corner resize, from the
`if self.dragging_mode == ...` dispatch of `on_mouse_drag`. -/
def fixedCorner (r : Rect) : Corner → ℤ × ℤ
  | Corner.tl => (r.x2, r.y2)
  | Corner.tr => (r.x1, r.y2)
  | Corner.bl => (r.x2, r.y1)
  | Corner.br => (r.x1, r.y1)

/-- The aspect-locked size computation of `on_mouse_drag`
(`projector_mirror_tk.py` lines 217–223): candidate width `max(MIN_W, dx)`,
candidate height `round(new_w / aspect)`; if that height exceeds `dy`, drive
from height instead: `max(MIN_H, dy)` and `round(new_h * aspect)`.
Aspect is the fraction `aw / ah`, so `new_w / aspect = new_w * ah / aw` and
`new_h * aspect = new_h * aw / ah`. -/
def resizeSize (cfg : Config) (dx dy : ℤ) : ℤ × ℤ :=
  if dy < pyRoundDiv (max MIN_W dx * cfg.ah) cfg.aw then
    (pyRoundDiv (max MIN_H dy * cfg.aw) cfg.ah, max MIN_H dy)
  else
    (max MIN_W dx, pyRoundDiv (max MIN_W dx * cfg.ah) cfg.aw)

/-- The size computation as the spec sentence words it: the computation is
driven from height if and only if the candidate height exceeds
`max(MIN_H, dy)` (rather than `dy`). -/
def specResizeSize (cfg : Config) (dx dy : ℤ) : ℤ × ℤ :=
  if max MIN_H dy < pyRoundDiv (max MIN_W dx * cfg.ah) cfg.aw then
    (pyRoundDiv (max MIN_H dy * cfg.aw) cfg.ah, max MIN_H dy)
  else
    (max MIN_W dx, pyRoundDiv (max MIN_W dx * cfg.ah) cfg.aw)

/-- The size computation as amended: driven from height if and only if the
candidate height exceeds `dy` itself, exactly as the code's
`if new_h > dy:` branch. -/
def amendedResizeSize (cfg : Config) (dx dy : ℤ) : ℤ × ℤ :=
  if dy < pyRoundDiv (max MIN_W dx * cfg.ah) cfg.aw then
    (pyRoundDiv (max MIN_H dy * cfg.aw) cfg.ah, max MIN_H dy)
  else
    (max MIN_W dx, pyRoundDiv (max MIN_W dx * cfg.ah) cfg.aw)

/-- Building the new box from the fixed corner with the per-corner clamps of
`on_mouse_drag` (`projector_mirror_tk.py` lines 226–241). -/
def placeRect (cfg : Config) (c : Corner) (fx fy nw nh : ℤ) : Rect :=
  match c with
  | Corner.tl => ⟨max 0 (min (fx - nw) fx), max 0 (min (fy - nh) fy), fx, fy⟩
  | Corner.tr => ⟨fx, max 0 (min (fy - nh) fy), min cfg.W (max (fx + nw) fx), fy⟩
  | Corner.bl => ⟨max 0 (min (fx - nw) fx), fy, fx, min cfg.H (max (fy + nh) fy)⟩
  | Corner.br => ⟨fx, fy, min cfg.W (max (fx + nw) fx), min cfg.H (max (fy + nh) fy)⟩

/-- One corner-resize step of `on_mouse_drag` in `projector_mirror_tk.py`:
the event cursor is clamped into the window, the absolute distances to the
fixed corner are taken, the aspect-locked size is computed, and the new box is
anchored at the fixed corner with clamps. -/
def resizeFromCorner (cfg : Config) (r : Rect) (c : Corner) (ex ey : ℤ) : Rect :=
  placeRect cfg c (fixedCorner r c).1 (fixedCorner r c).2
    (resizeSize cfg |clampI ex 0 cfg.W - (fixedCorner r c).1|
      |clampI ey 0 cfg.H - (fixedCorner r c).2|).1
    (resizeSize cfg |clampI ex 0 cfg.W - (fixedCorner r c).1|
      |clampI ey 0 cfg.H - (fixedCorner r c).2|).2

/-- The move branch of `on_mouse_drag` in `projector_mirror_tk.py`
(lines 186–193): the requested top-left `(rx, ry) = (x1 + dx, y1 + dy)` is
clamped so the rectangle stays inside `[0, W] × [0, H]`; the size is carried
over unchanged. -/
def moveToClamped (cfg : Config) (r : Rect) (rx ry : ℤ) : Rect :=
  ⟨max 0 (min rx (cfg.W - (r.x2 - r.x1))),
   max 0 (min ry (cfg.H - (r.y2 - r.y1))),
   max 0 (min rx (cfg.W - (r.x2 - r.x1))) + (r.x2 - r.x1),
   max 0 (min ry (cfg.H - (r.y2 - r.y1))) + (r.y2 - r.y1)⟩

/-- The move of `projector_mirror_simple.py`'s `mouseMoveEvent`
(lines 167–170): `self.rect.moveTo(new_top_left)` — the top-left is set to the
requested position with no clamping at all; the size is preserved. -/
def simpleMoveTo (r : Rect) (rx ry : ℤ) : Rect :=
  ⟨rx, ry, rx + (r.x2 - r.x1), ry + (r.y2 - r.y1)⟩

/-- First stage of the centered construction (`projector_mirror_tk.py`
lines 73–81): `rh = max(200, H // 3)`. -/
def constructH0 (cfg : Config) : ℤ := max 200 (cfg.H / 3)

/-- First-stage width `rw = int(rh * self.aspect)`. -/
def constructW0 (cfg : Config) : ℤ := pyTruncDiv (constructH0 cfg * cfg.aw) cfg.ah

/-- Center a `rw × rh` rectangle in the bounds: `rx = (W - rw) // 2`,
`ry = (H - rh) // 2`. -/
def centerRect (cfg : Config) (rw rh : ℤ) : Rect :=
  ⟨(cfg.W - rw) / 2, (cfg.H - rh) / 2,
   (cfg.W - rw) / 2 + rw, (cfg.H - rh) / 2 + rh⟩

/-- The centered initial rectangle of `projector_mirror_tk.py` (lines 73–81),
re-run verbatim by the reset key handler: height from one third of the bounds
height (at least 200), width from the aspect ratio; if that width exceeds the
bounds width, re-derive from half the bounds width. -/
def constructRect (cfg : Config) : Rect :=
  if cfg.W < constructW0 cfg then
    centerRect cfg (cfg.W / 2) (pyTruncDiv (cfg.W / 2 * cfg.ah) cfg.aw)
  else
    centerRect cfg (constructW0 cfg) (constructH0 cfg)

/-- `resetCentered` as a state operation: re-runs the construct derivation
against the current bounds, ignoring the current rectangle
(`on_key` handler for `r`, and `_reset_rect_centered` in
`projector_mirror_simple_v3.py`). -/
def resetCentered (cfg : Config) (_r : Rect) : Rect := constructRect cfg

/-- Containment of the rectangle in the window bounds:
`0 ≤ x`, `x + width ≤ W`, `0 ≤ y`, `y + height ≤ H`. -/
def contained (cfg : Config) (r : Rect) : Prop :=
  0 ≤ r.x1 ∧ r.x2 ≤ cfg.W ∧ 0 ≤ r.y1 ∧ r.y2 ≤ cfg.H

instance (cfg : Config) (r : Rect) : Decidable (contained cfg r) := by
  unfold contained; infer_instance

/-- The size part of the claimed rectangle invariant: containment, minimum
size, and in particular no inversion (`width ≥ MIN_W > 0`). -/
def SizeInv (cfg : Config) (r : Rect) : Prop :=
  0 ≤ r.x1 ∧ r.x1 + MIN_W ≤ r.x2 ∧ r.x2 ≤ cfg.W ∧
  0 ≤ r.y1 ∧ r.y1 + MIN_H ≤ r.y2 ∧ r.y2 ≤ cfg.H

instance (cfg : Config) (r : Rect) : Decidable (SizeInv cfg r) := by
  unfold SizeInv; infer_instance

/-- The aspect part of the claimed invariant: the width matches the height
scaled by the aspect ratio `aw / ah` within a tolerance of about one pixel per
axis (`|w - h * aw / ah| ≤ aw / ah + 1`, cleared of denominators). -/
def aspectOK (cfg : Config) (r : Rect) : Prop :=
  |(r.x2 - r.x1) * cfg.ah - (r.y2 - r.y1) * cfg.aw| ≤ cfg.aw + cfg.ah

instance (cfg : Config) (r : Rect) : Decidable (aspectOK cfg r) := by
  unfold aspectOK; infer_instance

/-- Rectangles reachable by the region editor: the initial centered rectangle,
then any interleaving of clamped moves, corner resizes (any corner, any cursor
position) and resets. -/
inductive Reachable (cfg : Config) : Rect → Prop where
  | init : Reachable cfg (constructRect cfg)
  | move {r : Rect} (rx ry : ℤ) :
      Reachable cfg r → Reachable cfg (moveToClamped cfg r rx ry)
  | resize {r : Rect} (c : Corner) (ex ey : ℤ) :
      Reachable cfg r → Reachable cfg (resizeFromCorner cfg r c ex ey)
  | reset {r : Rect} :
      Reachable cfg r → Reachable cfg (constructRect cfg)

/-- Result of `hit_test`: one of the four corner handles, or the rectangle
body (`'move'`). -/
inductive Hit where
  | tl
  | tr
  | bl
  | br
  | move
deriving DecidableEq, Repr

/-- Membership in a corner-handle zone: the square of half-side `HANDLE`
centred on `(cx, cy)` (`abs(x - cx) <= HANDLE and abs(y - cy) <= HANDLE`). -/
def inHandle (cx cy x y : ℤ) : Prop :=
  |x - cx| ≤ HANDLE ∧ |y - cy| ≤ HANDLE

instance (cx cy x y : ℤ) : Decidable (inHandle cx cy x y) := by
  unfold inHandle; infer_instance

/-- `hit_test` of `projector_mirror_tk.py` (lines 154–167): the corner handles
are tested first in the order tl, tr, bl, br; then the strict interior of the
rectangle yields `'move'`; anything else hits nothing. -/
def hitTest (r : Rect) (x y : ℤ) : Option Hit :=
  if |x - r.x1| ≤ HANDLE ∧ |y - r.y1| ≤ HANDLE then some Hit.tl
  else if |x - r.x2| ≤ HANDLE ∧ |y - r.y1| ≤ HANDLE then some Hit.tr
  else if |x - r.x1| ≤ HANDLE ∧ |y - r.y2| ≤ HANDLE then some Hit.bl
  else if |x - r.x2| ≤ HANDLE ∧ |y - r.y2| ≤ HANDLE then some Hit.br
  else if r.x1 < x ∧ x < r.x2 ∧ r.y1 < y ∧ y < r.y2 then some Hit.move
  else none

/-- The mutable widget state touched by the pointer and key handlers of
`ProjectorMirrorApp`: the rectangle, the `mirroring` flag, the active drag
gesture and the previous mouse position. -/
structure AppState where
  rect : Rect
  mirroring : Bool
  draggingMode : Option Hit
  prevMouse : ℤ × ℤ
deriving DecidableEq, Repr

/-- `on_mouse_down`: ignored entirely while mirroring; otherwise records the
mouse position and starts the gesture determined by `hit_test`. -/
def onMouseDown (s : AppState) (ex ey : ℤ) : AppState :=
  if s.mirroring then s
  else ⟨s.rect, s.mirroring, hitTest s.rect ex ey, (ex, ey)⟩

/-- `on_mouse_drag`: ignored while mirroring or with no active gesture;
a `'move'` gesture translates by the clamped-cursor delta and clamps, a corner
gesture runs the aspect-locked resize; the raw event position is stored as the
new previous mouse position. -/
def onMouseDrag (cfg : Config) (s : AppState) (ex ey : ℤ) : AppState :=
  if s.mirroring then s
  else
    match s.draggingMode with
    | none => s
    | some Hit.move =>
        ⟨moveToClamped cfg s.rect
          (s.rect.x1 + (clampI ex 0 cfg.W - s.prevMouse.1))
          (s.rect.y1 + (clampI ey 0 cfg.H - s.prevMouse.2)),
         s.mirroring, s.draggingMode, (ex, ey)⟩
    | some Hit.tl =>
        ⟨resizeFromCorner cfg s.rect Corner.tl ex ey,
         s.mirroring, s.draggingMode, (ex, ey)⟩
    | some Hit.tr =>
        ⟨resizeFromCorner cfg s.rect Corner.tr ex ey,
         s.mirroring, s.draggingMode, (ex, ey)⟩
    | some Hit.bl =>
        ⟨resizeFromCorner cfg s.rect Corner.bl ex ey,
         s.mirroring, s.draggingMode, (ex, ey)⟩
    | some Hit.br =>
        ⟨resizeFromCorner cfg s.rect Corner.br ex ey,
         s.mirroring, s.draggingMode, (ex, ey)⟩

/-- The `'r'` branch of `on_key`: resets the rectangle to the centered default,
but only when not mirroring (`if k == 'r' and not self.mirroring`). -/
def onKeyReset (cfg : Config) (s : AppState) : AppState :=
  if s.mirroring then s
  else ⟨constructRect cfg, s.mirroring, s.draggingMode, s.prevMouse⟩

/-- The single-slot frame mailbox (`self._latest_img` under `self._frame_lock`
in `projector_mirror_tk_v2.py`): `none` is an empty slot, `some n` holds the
frame with sequence number `n`. -/
def FrameSlot : Type := Option ℕ

/-- Producer write (`self._latest_img = img` in `capture_loop`): always
overwrites whatever was in the slot. -/
def slotWrite (_s : FrameSlot) (f : ℕ) : FrameSlot := some f

/-- Consumer read (`img = self._latest_img; self._latest_img = None` in
`ui_update_loop`): returns the slot contents and clears the slot. -/
def slotRead (s : FrameSlot) : Option ℕ × FrameSlot := (s, none)

/-- A burst of producer writes, in order. -/
def runWrites (s : FrameSlot) (fs : List ℕ) : FrameSlot := fs.foldl slotWrite s

/-- One iteration of `capture_loop_dx` in `projector_mirror_tk_fast.py`
(lines 298–313), reduced to its effect on the frame slot: on a failed grab
(`frame is None`) the slot is left untouched, nothing is published, and the
loop sleeps a fixed 5 ms backoff (`time.sleep(0.005)`) before retrying; on a
successful grab the processed frame is published into the slot.  The result is
`(new slot, published?, backoff in ms)`. -/
def captureCycle (s : FrameSlot) (grabResult : Option ℕ) : FrameSlot × Bool × ℕ :=
  match grabResult with
  | none => (s, false, 5)
  | some raw => (slotWrite s raw, true, 0)

/-- The frame slot after a sequence of capture cycles with the given grab
results. -/
def runCycles (s : FrameSlot) (grabs : List (Option ℕ)) : FrameSlot :=
  grabs.foldl (fun t g => (captureCycle t g).1) s

/-- The `+` key handler of `projector_mirror.py` (line 273):
`self.fps = min(120, self.fps + 5)`. -/
def fpsPlus (f : ℤ) : ℤ := min 120 (f + 5)

/-- The `-` key handler of `projector_mirror.py` (line 278):
`self.fps = max(10, self.fps - 5)`. -/
def fpsMinus (f : ℤ) : ℤ := max 10 (f - 5)

/-- The `+` key handler of `projector_mirror_tk_fast.py` (line 269):
`self.target_fps = min(120, self.target_fps + 10)`. -/
def fastFpsPlus (f : ℤ) : ℤ := min 120 (f + 10)

/-- The `-` key handler of `projector_mirror_tk_fast.py` (line 273):
`self.target_fps = max(30, self.target_fps - 10)`. -/
def fastFpsMinus (f : ℤ) : ℤ := max 30 (f - 10)

/-! ## Helper lemmas -/

/-- Both branches of the size computation keep the width at least `MIN_W`,
provided rounding `MIN_H` heights through the aspect ratio lands at `MIN_W`
or above. -/
theorem resizeSize_fst_ge (cfg : Config) (dx dy : ℤ)
    (hA2 : ∀ h : ℤ, MIN_H ≤ h → MIN_W ≤ pyRoundDiv (h * cfg.aw) cfg.ah) :
    MIN_W ≤ (resizeSize cfg dx dy).1 := by
  unfold resizeSize
  split
  · exact hA2 (max MIN_H dy) (le_max_left _ _)
  · exact le_max_left _ _

/-- Both branches of the size computation keep the height at least `MIN_H`,
provided rounding `MIN_W` widths through the aspect ratio lands at `MIN_H`
or above. -/
theorem resizeSize_snd_ge (cfg : Config) (dx dy : ℤ)
    (hA1 : ∀ w : ℤ, MIN_W ≤ w → MIN_H ≤ pyRoundDiv (w * cfg.ah) cfg.aw) :
    MIN_H ≤ (resizeSize cfg dx dy).2 := by
  unfold resizeSize
  split
  · exact le_max_left _ _
  · exact hA1 (max MIN_W dx) (le_max_left _ _)

/-- Anchoring a box of size at least `MIN_W × MIN_H` at the fixed corner with
the per-corner clamps preserves the size invariant. -/
theorem place_preserves (cfg : Config) (c : Corner) (r : Rect) (nw nh : ℤ)
    (hr : SizeInv cfg r) (hnw : MIN_W ≤ nw) (hnh : MIN_H ≤ nh) :
    SizeInv cfg (placeRect cfg c (fixedCorner r c).1 (fixedCorner r c).2 nw nh) := by
  simp only [SizeInv, MIN_W, MIN_H] at hr hnw hnh ⊢
  cases c <;> simp only [placeRect, fixedCorner] <;> omega

/-- A corner resize preserves the size invariant, whatever the corner and
cursor position. -/
theorem resize_preserves (cfg : Config) (r : Rect) (c : Corner) (ex ey : ℤ)
    (hA1 : ∀ w : ℤ, MIN_W ≤ w → MIN_H ≤ pyRoundDiv (w * cfg.ah) cfg.aw)
    (hA2 : ∀ h : ℤ, MIN_H ≤ h → MIN_W ≤ pyRoundDiv (h * cfg.aw) cfg.ah)
    (hr : SizeInv cfg r) :
    SizeInv cfg (resizeFromCorner cfg r c ex ey) := by
  unfold resizeFromCorner
  exact place_preserves cfg c r _ _ hr
    (resizeSize_fst_ge cfg _ _ hA2) (resizeSize_snd_ge cfg _ _ hA1)

/-- A clamped move preserves the size invariant. -/
theorem move_preserves (cfg : Config) (r : Rect) (rx ry : ℤ)
    (hr : SizeInv cfg r) : SizeInv cfg (moveToClamped cfg r rx ry) := by
  simp only [SizeInv, MIN_W, MIN_H, moveToClamped] at hr ⊢
  omega

/-- Truncation of a nonnegative fraction is plain floor division. -/
theorem pyTruncDiv_of_nonneg (n d : ℤ) (h : 0 ≤ n) : pyTruncDiv n d = n / d := by
  unfold pyTruncDiv
  rw [if_pos h]

/-- For a positive divisor, the divisor times the floor quotient is at most the
dividend. -/
theorem ediv_mul_le_self (a b : ℤ) (hb : 0 < b) : b * (a / b) ≤ a := by
  have h := Int.emod_nonneg a (by omega : b ≠ 0)
  have h2 : a % b = a - b * (a / b) := Int.emod_def a b
  omega

/-- `n` decrease-key events in `projector_mirror.py` yield
`max(10, fps - 5 n)`. -/
theorem fpsMinus_iter (n : ℕ) (f : ℤ) :
    fpsMinus^[n + 1] f = max 10 (f - 5 * (n + 1)) := by
  induction n with
  | zero =>
      rw [Function.iterate_one]
      unfold fpsMinus
      omega
  | succ k ih =>
      rw [Function.iterate_succ_apply', ih]
      unfold fpsMinus
      omega

/-- `n` increase-key events in `projector_mirror.py` yield
`min(120, fps + 5 n)`. -/
theorem fpsPlus_iter (n : ℕ) (f : ℤ) :
    fpsPlus^[n + 1] f = min 120 (f + 5 * (n + 1)) := by
  induction n with
  | zero =>
      rw [Function.iterate_one]
      unfold fpsPlus
      omega
  | succ k ih =>
      rw [Function.iterate_succ_apply', ih]
      unfold fpsPlus
      omega

/-- `n` decrease-key events in `projector_mirror_tk_fast.py` yield
`max(30, fps - 10 n)`. -/
theorem fastFpsMinus_iter (n : ℕ) (f : ℤ) :
    fastFpsMinus^[n + 1] f = max 30 (f - 10 * (n + 1)) := by
  induction n with
  | zero =>
      rw [Function.iterate_one]
      unfold fastFpsMinus
      omega
  | succ k ih =>
      rw [Function.iterate_succ_apply', ih]
      unfold fastFpsMinus
      omega

/-- `n` increase-key events in `projector_mirror_tk_fast.py` yield
`min(120, fps + 10 n)`. -/
theorem fastFpsPlus_iter (n : ℕ) (f : ℤ) :
    fastFpsPlus^[n + 1] f = min 120 (f + 10 * (n + 1)) := by
  induction n with
  | zero =>
      rw [Function.iterate_one]
      unfold fastFpsPlus
      omega
  | succ k ih =>
      rw [Function.iterate_succ_apply', ih]
      unfold fastFpsPlus
      omega

/-! ## Claim theorems -/

/-- C1 (counterexample): the claim as stated is false — there is a reachable
rectangle and a corner resize after which the rectangle's width/height ratio is
far from the fixed 16/9 aspect ratio (width 640 but height 720, an error of
640 height-scaled pixels, far beyond any rounding tolerance): move the
construct-default rectangle to the right edge, then drag the bottom-right
handle towards the top-left with the cursor at `(0, 1080)` — the `min(W, ...)`
clamp cuts the width from 1280 to 640 while the height stays 720. -/
theorem C1_counterexample :
    Reachable cfg0 ⟨1280, 300, 1920, 1020⟩ ∧
    ¬ aspectOK cfg0 ⟨1280, 300, 1920, 1020⟩ := by
  constructor
  · have h : resizeFromCorner cfg0 (moveToClamped cfg0 (constructRect cfg0) 1280 300)
        Corner.br 0 1080 = ⟨1280, 300, 1920, 1020⟩ := by decide
    rw [← h]
    exact Reachable.resize Corner.br 0 1080 (Reachable.move 1280 300 Reachable.init)
  · decide

/-- C1 (amended): for every reachable rectangle — initial construct, then any
sequence of corner resizes (any corner, any cursor position), clamped moves and
resets — the rectangle keeps width ≥ MIN_W and height ≥ MIN_H (so it never
inverts) and stays fully inside the window bounds; the aspect-ratio conjunct of
the original claim is dropped (the bounds clamps can break it, see the
counterexample).  The aspect ratio must be moderate: rounding a MIN_W-wide box
through the ratio gives height ≥ MIN_H and vice versa (true for 16/9), and the
initial construct rectangle must satisfy the invariant (true for 1920×1080). -/
theorem C1_amended_invariant (cfg : Config)
    (hA1 : ∀ w : ℤ, MIN_W ≤ w → MIN_H ≤ pyRoundDiv (w * cfg.ah) cfg.aw)
    (hA2 : ∀ h : ℤ, MIN_H ≤ h → MIN_W ≤ pyRoundDiv (h * cfg.aw) cfg.ah)
    (hInit : SizeInv cfg (constructRect cfg)) :
    ∀ r : Rect, Reachable cfg r → SizeInv cfg r := by
  intro r h
  induction h with
  | init => exact hInit
  | move rx ry _ ih => exact move_preserves cfg _ rx ry ih
  | resize c ex ey _ ih => exact resize_preserves cfg _ c ex ey hA1 hA2 ih
  | reset _ _ => exact hInit

/-- C1 (witness): the amended invariant applied in the 16/9, 1920×1080
configuration to the rectangle obtained by moving the construct default with a
far-out-of-bounds request. -/
theorem C1_amended_invariant_witness :
    SizeInv cfg0 (moveToClamped cfg0 (constructRect cfg0) 10000 (-50)) :=
  C1_amended_invariant cfg0
    (by
      intro w hw
      have hw' : (80 : ℤ) ≤ w := hw
      show (45 : ℤ) ≤ pyRoundDiv (w * 9) 16
      unfold pyRoundDiv
      split_ifs <;> omega)
    (by
      intro h hh
      have hh' : (45 : ℤ) ≤ h := hh
      show (80 : ℤ) ≤ pyRoundDiv (h * 16) 9
      unfold pyRoundDiv
      split_ifs <;> omega)
    (by decide)
    (moveToClamped cfg0 (constructRect cfg0) 10000 (-50))
    (Reachable.move 10000 (-50) Reachable.init)

/-- C2 (counterexample): the claim's tie-break ("driven from height if and only
if the candidate height exceeds `max(MIN_H, dy)`") disagrees with the code's
`if new_h > dy` at aspect ratio 64/27 (an ultrawide 2560×1080 source) with
`dx = 80, dy = 0`: the code switches to height-driven and yields `(107, 45)`,
the claimed rule stays width-driven and yields `(80, 34)`. -/
theorem C2_counterexample :
    resizeSize ⟨64, 27, 1920, 1080⟩ 80 0 ≠ specResizeSize ⟨64, 27, 1920, 1080⟩ 80 0 := by
  decide

/-- C2 (amended): the size computation is exactly the claimed one with the
tie-break condition amended from "candidate height exceeds `max(MIN_H, dy)`"
to "candidate height exceeds `dy`": candidate width `max(MIN_W, dx)`, candidate
height `round(candidateWidth / aspect)`, and if and only if that height exceeds
`dy` the computation is driven from height with `max(MIN_H, dy)` and
`round(candidateHeight * aspect)`. -/
theorem C2_amended_tiebreak :
    ∀ (cfg : Config) (dx dy : ℤ), resizeSize cfg dx dy = amendedResizeSize cfg dx dy :=
  fun _ _ _ => rfl

/-- C3 (code bug evaluation): the clamped move of `projector_mirror_tk.py`
satisfies the claim — for every requested top-left, the spec-scenario rectangle
stays fully inside the 1920×1080 bounds with its 640×360 size unchanged, and
the far-out-of-bounds request `(-10000, 99999)` lands at `(0, 720)` — while the
unclamped `rect.moveTo` of `projector_mirror_simple.py`'s `mouseMoveEvent`
moves the same rectangle to `(-10000, 99999)`, far outside the bounds. -/
theorem C3_move_clamp_eval :
    (∀ rx ry : ℤ,
      contained cfg0 (moveToClamped cfg0 ⟨640, 360, 1280, 720⟩ rx ry) ∧
      (moveToClamped cfg0 ⟨640, 360, 1280, 720⟩ rx ry).x2 -
        (moveToClamped cfg0 ⟨640, 360, 1280, 720⟩ rx ry).x1 = 640 ∧
      (moveToClamped cfg0 ⟨640, 360, 1280, 720⟩ rx ry).y2 -
        (moveToClamped cfg0 ⟨640, 360, 1280, 720⟩ rx ry).y1 = 360) ∧
    moveToClamped cfg0 ⟨640, 360, 1280, 720⟩ (-10000) 99999 = ⟨0, 720, 640, 1080⟩ ∧
    simpleMoveTo ⟨640, 360, 1280, 720⟩ (-10000) 99999 = ⟨-10000, 99999, -9360, 100359⟩ ∧
    ¬ contained cfg0 (simpleMoveTo ⟨640, 360, 1280, 720⟩ (-10000) 99999) := by
  refine ⟨fun rx ry => ?_, by decide, by decide, by decide⟩
  simp only [contained, moveToClamped, cfg0]
  omega

/-- C4 (counterexample): the construct derivation does not always produce a
contained rectangle — for bounds 1000×100 with a 16/9 aspect the first-stage
height is `max(200, 33) = 200 > 100`, so the centered rectangle starts at
`y = -50`, outside the bounds. -/
theorem C4_counterexample :
    ¬ contained ⟨16, 9, 1000, 100⟩ (constructRect ⟨16, 9, 1000, 100⟩) := by
  decide

/-- C4 (amended): whenever the bounds height is at least the 200-pixel floor of
the first-stage derivation (and the aspect ratio is a positive fraction and the
bounds width nonnegative), the two-step construct derivation yields a rectangle
fully contained in the bounds; and in the spec scenario (bounds 1920×1080,
aspect 16/9) it yields exactly the centered 640×360 rectangle. -/
theorem C4_amended_construct :
    (∀ cfg : Config, 0 < cfg.aw → 0 < cfg.ah → 0 ≤ cfg.W → 200 ≤ cfg.H →
      contained cfg (constructRect cfg)) ∧
    constructRect cfg0 = ⟨640, 360, 1280, 720⟩ := by
  refine ⟨?_, by decide⟩
  intro cfg haw hah hW hH
  have hcenter : ∀ rw rh : ℤ, 0 ≤ rw → rw ≤ cfg.W → 0 ≤ rh → rh ≤ cfg.H →
      contained cfg (centerRect cfg rw rh) := by
    intro rw rh h1 h2 h3 h4
    simp only [contained, centerRect]
    omega
  have hh0a : (200 : ℤ) ≤ constructH0 cfg := le_max_left _ _
  have hh0b : constructH0 cfg ≤ cfg.H := by
    simp only [constructH0]
    omega
  have harg : 0 ≤ constructH0 cfg * cfg.aw := mul_nonneg (by omega) haw.le
  have hW0 : constructW0 cfg = constructH0 cfg * cfg.aw / cfg.ah := by
    unfold constructW0
    exact pyTruncDiv_of_nonneg _ _ harg
  unfold constructRect
  split_ifs with hspl
  · -- fallback branch: the first-stage width exceeded the bounds width
    have htn : 0 ≤ cfg.W / 2 := Int.ediv_nonneg hW (by omega)
    have hargs : 0 ≤ cfg.W / 2 * cfg.ah := mul_nonneg htn hah.le
    refine hcenter _ _ htn (by omega) ?_ ?_
    · rw [pyTruncDiv_of_nonneg _ _ hargs]
      exact Int.ediv_nonneg hargs haw.le
    · rw [pyTruncDiv_of_nonneg _ _ hargs]
      have h1 : cfg.W + 1 ≤ constructH0 cfg * cfg.aw / cfg.ah := by
        rw [hW0] at hspl
        omega
      have h2 : cfg.ah * (constructH0 cfg * cfg.aw / cfg.ah) ≤ constructH0 cfg * cfg.aw :=
        ediv_mul_le_self _ _ hah
      have h3 : cfg.ah * (cfg.W + 1) ≤ constructH0 cfg * cfg.aw :=
        le_trans (mul_le_mul_of_nonneg_left h1 hah.le) h2
      have ht2 : 2 * (cfg.W / 2) ≤ cfg.W := by omega
      have h4 : cfg.aw * (cfg.W / 2 * cfg.ah / cfg.aw) ≤ cfg.W / 2 * cfg.ah :=
        ediv_mul_le_self _ _ haw
      have h5 : 2 * (cfg.W / 2) * cfg.ah ≤ cfg.W * cfg.ah :=
        mul_le_mul_of_nonneg_right ht2 hah.le
      have h7 : constructH0 cfg * cfg.aw ≤ cfg.H * cfg.aw :=
        mul_le_mul_of_nonneg_right hh0b haw.le
      have hq0 : 0 ≤ cfg.W / 2 * cfg.ah / cfg.aw := Int.ediv_nonneg hargs haw.le
      have h8 : cfg.aw * (2 * (cfg.W / 2 * cfg.ah / cfg.aw)) < cfg.aw * cfg.H := by
        nlinarith
      have h9 : 2 * (cfg.W / 2 * cfg.ah / cfg.aw) < cfg.H :=
        lt_of_mul_lt_mul_left h8 haw.le
      omega
  · -- first-stage branch: the derived width already fits
    have hw0n : 0 ≤ constructW0 cfg := by
      rw [hW0]
      exact Int.ediv_nonneg harg hah.le
    exact hcenter _ _ hw0n (by omega) (by omega) hh0b

/-- C4 (witness): the amended containment applied to the spec scenario's
configuration, together with the concrete 640×360 result. -/
theorem C4_amended_construct_witness :
    contained cfg0 (constructRect cfg0) ∧ constructRect cfg0 = ⟨640, 360, 1280, 720⟩ :=
  ⟨C4_amended_construct.1 cfg0 (by decide) (by decide) (by decide) (by decide),
   C4_amended_construct.2⟩

/-- C5: the frame slot holds at most one frame — every producer write
overwrites any unread prior frame, a read returns the written frame and clears
the slot, and after writes 1, 2, 3 a read observes only frame 3 and a second
read observes nothing (an already-consumed frame is never delivered again). -/
theorem C5_latest_wins :
    (∀ (s : FrameSlot) (f : ℕ), slotWrite s f = some f) ∧
    (∀ (s : FrameSlot) (f : ℕ), slotRead (slotWrite s f) = (some f, none)) ∧
    (∀ s : FrameSlot,
      (slotRead (runWrites s [1, 2, 3])).1 = some 3 ∧
      (slotRead (slotRead (runWrites s [1, 2, 3])).2).1 = none) :=
  ⟨fun _ _ => rfl, fun _ _ => rfl, fun _ => ⟨rfl, rfl⟩⟩

/-- C6: a capture cycle whose grab fails publishes nothing, leaves the frame
slot exactly as it was, and backs off a fixed 5 ms before the next cycle; any
number of consecutive failed cycles leaves the slot untouched (the loop is a
total function — it cannot crash in the model). -/
theorem C6_capture_failure :
    ∀ (s : FrameSlot) (n : ℕ),
      captureCycle s none = (s, false, 5) ∧
      runCycles s (List.replicate n none) = s := by
  intro s n
  refine ⟨rfl, ?_⟩
  induction n with
  | zero => rfl
  | succ k ih =>
      simpa only [runCycles, List.replicate, List.foldl] using ih

/-- C7: once the mirroring flag is set, pointer-down, pointer-drag and reset
events leave the rectangle completely unchanged. -/
theorem C7_frozen_when_mirroring (cfg : Config) (s : AppState) (ex ey : ℤ)
    (h : s.mirroring = true) :
    (onMouseDown s ex ey).rect = s.rect ∧
    (onMouseDrag cfg s ex ey).rect = s.rect ∧
    (onKeyReset cfg s).rect = s.rect := by
  unfold onMouseDown onMouseDrag onKeyReset
  simp [h]

/-- C7 (witness): a concrete mirroring state is untouched by a pointer-down,
a drag and a reset. -/
theorem C7_frozen_when_mirroring_witness :
    (onMouseDown ⟨⟨100, 100, 500, 325⟩, true, none, (0, 0)⟩ 120 120).rect =
      (⟨100, 100, 500, 325⟩ : Rect) ∧
    (onMouseDrag cfg0 ⟨⟨100, 100, 500, 325⟩, true, none, (0, 0)⟩ 120 120).rect =
      (⟨100, 100, 500, 325⟩ : Rect) ∧
    (onKeyReset cfg0 ⟨⟨100, 100, 500, 325⟩, true, none, (0, 0)⟩).rect =
      (⟨100, 100, 500, 325⟩ : Rect) :=
  C7_frozen_when_mirroring cfg0 ⟨⟨100, 100, 500, 325⟩, true, none, (0, 0)⟩ 120 120 rfl

/-- C8 (counterexample): the claim "every decrease-rate key event sets the rate
to `max(10, rate - step)`" is false for the decrease handler of
`projector_mirror_tk_fast.py` (step 10): at rate 30 it yields 30, not
`max(10, 30 - 10) = 20` — that handler clamps at 30, not 10. -/
theorem C8_counterexample : fastFpsMinus 30 ≠ max 10 (30 - 10) := by decide

/-- C8 (amended): in `projector_mirror.py` the rate keys behave exactly as
claimed with step 5 — `n` decreases yield `max(10, rate - 5 n)` and `n`
increases `min(120, rate + 5 n)`, so the rate never leaves `[10, 120]` once
inside, repeated decreases reach 10 (22 suffice from anywhere ≤ 120) and
repeated increases reach 120; in `projector_mirror_tk_fast.py` the step is 10
and increases clamp at 120 as claimed, but decreases clamp at 30, so the
reachable range there is `[30, 120]`. -/
theorem C8_amended_rate_clamp :
    (∀ (n : ℕ) (f : ℤ), fpsMinus^[n + 1] f = max 10 (f - 5 * (n + 1)) ∧
      fpsPlus^[n + 1] f = min 120 (f + 5 * (n + 1))) ∧
    (∀ (n : ℕ) (f : ℤ), fastFpsMinus^[n + 1] f = max 30 (f - 10 * (n + 1)) ∧
      fastFpsPlus^[n + 1] f = min 120 (f + 10 * (n + 1))) ∧
    (∀ f : ℤ, 10 ≤ f → f ≤ 120 →
      10 ≤ fpsPlus f ∧ fpsPlus f ≤ 120 ∧ 10 ≤ fpsMinus f ∧ fpsMinus f ≤ 120) ∧
    (∀ f : ℤ, f ≤ 120 → fpsMinus^[22] f = 10) ∧
    (∀ f : ℤ, 10 ≤ f → fpsPlus^[22] f = 120) := by
  refine ⟨fun n f => ⟨fpsMinus_iter n f, fpsPlus_iter n f⟩,
          fun n f => ⟨fastFpsMinus_iter n f, fastFpsPlus_iter n f⟩,
          fun f h1 h2 => ?_, fun f h => ?_, fun f h => ?_⟩
  · unfold fpsPlus fpsMinus
    omega
  · have h22 := fpsMinus_iter 21 f
    rw [show (21 : ℕ) + 1 = 22 from rfl] at h22
    omega
  · have h22 := fpsPlus_iter 21 f
    rw [show (21 : ℕ) + 1 = 22 from rfl] at h22
    omega

/-- C8 (witness): the amended behaviour at concrete rates — one step from rate
10 stays in range, 22 decreases from 115 land exactly on 10, and 22 increases
from 30 land exactly on 120. -/
theorem C8_amended_rate_clamp_witness :
    (10 ≤ fpsPlus 10 ∧ fpsPlus 10 ≤ 120 ∧ 10 ≤ fpsMinus 10 ∧ fpsMinus 10 ≤ 120) ∧
    fpsMinus^[22] 115 = 10 ∧ fpsPlus^[22] 30 = 120 :=
  ⟨C8_amended_rate_clamp.2.2.1 10 (by decide) (by decide),
   C8_amended_rate_clamp.2.2.2.1 115 (by decide),
   C8_amended_rate_clamp.2.2.2.2 30 (by decide)⟩

/-- C9: `resetCentered` is idempotent — it recomputes the centered default from
the fixed bounds and aspect ratio alone, so a second call returns exactly the
rectangle of the first. -/
theorem C9_reset_idempotent :
    ∀ (cfg : Config) (r : Rect), resetCentered cfg (resetCentered cfg r) = resetCentered cfg r :=
  fun _ _ => rfl

/-- C10: for a pointer position outside all four corner-handle zones,
`hit_test` returns `'move'` exactly when the position is strictly inside the
rectangle, and returns nothing otherwise — in particular a border point in no
handle zone hits nothing, so a pointer-down there begins no gesture. -/
theorem C10_hit_move_iff (r : Rect) (x y : ℤ)
    (h1 : ¬ inHandle r.x1 r.y1 x y) (h2 : ¬ inHandle r.x2 r.y1 x y)
    (h3 : ¬ inHandle r.x1 r.y2 x y) (h4 : ¬ inHandle r.x2 r.y2 x y) :
    (hitTest r x y = some Hit.move ↔ r.x1 < x ∧ x < r.x2 ∧ r.y1 < y ∧ y < r.y2) ∧
    (¬ (r.x1 < x ∧ x < r.x2 ∧ r.y1 < y ∧ y < r.y2) → hitTest r x y = none) := by
  unfold inHandle at h1 h2 h3 h4
  unfold hitTest
  rw [if_neg h1, if_neg h2, if_neg h3, if_neg h4]
  split_ifs with h5 <;> simp [h5]

/-- C10 (witness): the claim applied to the centre of a concrete rectangle
(inside, hits `'move'`) with handle-zone side conditions checked by
computation. -/
theorem C10_hit_move_iff_witness :
    (hitTest ⟨0, 0, 100, 100⟩ 50 50 = some Hit.move ↔
      (0 : ℤ) < 50 ∧ (50 : ℤ) < 100 ∧ (0 : ℤ) < 50 ∧ (50 : ℤ) < 100) ∧
    (¬ ((0 : ℤ) < 50 ∧ (50 : ℤ) < 100 ∧ (0 : ℤ) < 50 ∧ (50 : ℤ) < 100) →
      hitTest ⟨0, 0, 100, 100⟩ 50 50 = none) :=
  C10_hit_move_iff ⟨0, 0, 100, 100⟩ 50 50 (by decide) (by decide) (by decide) (by decide)

end PM
